import Mathlib

set_option maxRecDepth 16384

/-!
Verification development for the school violation-tracking backend.

The relational store (drizzle/postgres) is embedded as explicit list-based
state (`DB`, `PhotoStore`); each handler from the source becomes a pure Lean
function that threads the state and returns `Except`/values exactly where the
source throws/returns.  Wall-clock reads (`new Date()`, `Date.now()`) and the
random id fragment are passed as explicit parameters.  Locale date/time
rendering (`Intl.DateTimeFormat`) is environment-dependent and is passed as a
formatter parameter.
-/

/-- Row of the `students` table (src/db/schema: studentsTable).  The source
field `class` is a reserved word in Lean and is spelled `class_` here. -/
structure Student where
  id : Nat
  nisn : String
  name : String
  class_ : String
  parent_name : String
  parent_whatsapp : String
  created_at : Int
  updated_at : Int
  deriving DecidableEq, Repr

/-- Row of the `violations` table (src/db/schema: violationsTable). -/
structure Violation where
  id : Nat
  student_id : Nat
  violation_type : String
  location : String
  description : Option String
  photo_url : Option String
  violation_time : Int
  reported_by : Nat
  whatsapp_sent : Bool
  whatsapp_sent_at : Option Int
  created_at : Int
  updated_at : Int
  deriving DecidableEq, Repr

/-- The relational store: students, user ids (usersTable rows keyed by id),
violations, and the serial counter backing `violations.id`. -/
structure DB where
  students : List Student
  users : List Nat
  violations : List Violation
  nextVid : Nat
  deriving DecidableEq, Repr

/-- `CreateViolationInput` from src/schema.ts. -/
structure CreateViolationInput where
  student_id : Nat
  violation_type : String
  location : String
  description : Option String
  photo_url : Option String
  violation_time : Int
  reported_by : Nat
  deriving DecidableEq, Repr

/-- `UpdateViolationInput` from src/schema.ts: all fields except `id` are
optional (outer `Option`); `description` and `photo_url` are additionally
nullable (inner `Option`). -/
structure UpdateViolationInput where
  id : Nat
  student_id : Option Nat := none
  violation_type : Option String := none
  location : Option String := none
  description : Option (Option String) := none
  photo_url : Option (Option String) := none
  violation_time : Option Int := none
  whatsapp_sent : Option Bool := none
  deriving DecidableEq, Repr

/-- `GetViolationsInput` from src/schema.ts. -/
structure GetViolationsInput where
  student_id : Option Nat := none
  limit : Option Nat := none
  offset : Option Nat := none
  deriving DecidableEq, Repr

/-- `SendWhatsAppInput` from src/schema.ts. -/
structure SendWhatsAppInput where
  violation_id : Nat
  phone_number : String
  message : String
  deriving DecidableEq, Repr

/-- Result shape of `sendWhatsAppMessage`. -/
structure SendResult where
  success : Bool
  messageId : Option String := none
  error : Option String := none
  deriving DecidableEq, Repr

/-- Decidable equality for Except results, used to evaluate handlers on
concrete inputs. -/
instance {ε α : Type} [DecidableEq ε] [DecidableEq α] : DecidableEq (Except ε α) := fun a b =>
  match a, b with
  | Except.ok x, Except.ok y =>
      if h : x = y then isTrue (by rw [h]) else isFalse (by simp [h])
  | Except.error x, Except.error y =>
      if h : x = y then isTrue (by rw [h]) else isFalse (by simp [h])
  | Except.ok _, Except.error _ => isFalse (by simp)
  | Except.error _, Except.ok _ => isFalse (by simp)

/-- Error text thrown by updateViolation for a missing violation id. -/
def msgViolationNotFound (i : Nat) : String :=
  "Violation with ID " ++ toString i ++ " not found"

/-- Error text thrown when a referenced student id does not resolve. -/
def msgStudentNotFound (i : Nat) : String :=
  "Student with ID " ++ toString i ++ " not found"

/-- Error text thrown by createViolation for a missing reporter. -/
def msgUserNotFound (i : Nat) : String :=
  "User with ID " ++ toString i ++ " not found"

/-- Returned-value error of sendWhatsAppMessage and thrown error of
generateViolationMessage for a missing violation. -/
def msgWaViolationNotFound : String := "Violation not found"

/-- Error text of deleteStudent when violations still reference the student. -/
def msgCannotDeleteStudent : String := "Cannot delete student with existing violations"

/-- Error text of deleteStudent when the student row does not exist. -/
def msgStudentNotFoundPlain : String := "Student not found"

/-- SELECT ... WHERE violations.id = i LIMIT 1. -/
def findViolation (db : DB) (i : Nat) : Option Violation :=
  db.violations.find? (fun v => v.id == i)

/-- SELECT ... WHERE students.id = i LIMIT 1, reduced to existence. -/
def studentExists (db : DB) (i : Nat) : Bool :=
  db.students.any (fun st => st.id == i)

/-- SELECT ... WHERE users.id = i LIMIT 1, reduced to existence. -/
def userExists (db : DB) (i : Nat) : Bool :=
  db.users.any (fun u => u == i)

/-- ORDER BY violation_time DESC, embedded as the relation "later or equal". -/
def timeGe (a b : Violation) : Prop := b.violation_time ≤ a.violation_time

instance : DecidableRel timeGe := fun a b =>
  inferInstanceAs (Decidable (b.violation_time ≤ a.violation_time))

instance : IsTotal Violation timeGe :=
  ⟨fun a b => le_total b.violation_time a.violation_time⟩

instance : IsTrans Violation timeGe :=
  ⟨fun _ _ _ h1 h2 => le_trans h2 h1⟩

/-- Deterministic embedding of ORDER BY violation_time DESC. -/
def sortByTimeDesc (l : List Violation) : List Violation :=
  List.insertionSort timeGe l

/-- getViolations (src/handlers violations: getViolations).  Optional filter by
student_id; always ordered by violation_time descending; LIMIT defaults to
1000 and OFFSET to 0 (SQL applies OFFSET before LIMIT). -/
def getViolations (db : DB) (input : Option GetViolationsInput) : List Violation :=
  let lim := (input.bind (fun i => i.limit)).getD 1000
  let off := (input.bind (fun i => i.offset)).getD 0
  match input.bind (fun i => i.student_id) with
  | some sid =>
      (((sortByTimeDesc (db.violations.filter (fun v => v.student_id == sid)))).drop off).take lim
  | none => ((sortByTimeDesc db.violations).drop off).take lim

/-- getViolationById: returns the row or none, never throws. -/
def getViolationById (db : DB) (i : Nat) : Option Violation :=
  findViolation db i

/-- createViolation: checks the student and the reporter exist (throwing
NotFound naming the missing one), then inserts with whatsapp_sent = false and
whatsapp_sent_at = null; created_at/updated_at default to now.  The pair
carries the store so that a thrown error visibly leaves it unchanged. -/
def createViolation (db : DB) (input : CreateViolationInput) (now : Int) :
    Except String Violation × DB :=
  if studentExists db input.student_id then
    if userExists db input.reported_by then
      let v : Violation :=
        { id := db.nextVid
          student_id := input.student_id
          violation_type := input.violation_type
          location := input.location
          description := input.description
          photo_url := input.photo_url
          violation_time := input.violation_time
          reported_by := input.reported_by
          whatsapp_sent := false
          whatsapp_sent_at := none
          created_at := now
          updated_at := now }
      (Except.ok v, { db with violations := db.violations ++ [v], nextVid := db.nextVid + 1 })
    else (Except.error (msgUserNotFound input.reported_by), db)
  else (Except.error (msgStudentNotFound input.student_id), db)

/-- The UPDATE ... SET row transformer of updateViolation: each conditionally
built `updateData` column of the source becomes one field here.  `ex` is the
pre-checked existing row (`existing[0]`) whose whatsapp_sent gates the
whatsapp_sent_at side effect; `updated_at` is always refreshed. -/
def applySet (input : UpdateViolationInput) (ex : Violation) (now : Int) (w : Violation) :
    Violation :=
  { id := w.id
    student_id := input.student_id.getD w.student_id
    violation_type := input.violation_type.getD w.violation_type
    location := input.location.getD w.location
    description := input.description.getD w.description
    photo_url := input.photo_url.getD w.photo_url
    violation_time := input.violation_time.getD w.violation_time
    reported_by := w.reported_by
    whatsapp_sent := input.whatsapp_sent.getD w.whatsapp_sent
    whatsapp_sent_at :=
      if input.whatsapp_sent.getD false && !ex.whatsapp_sent then some now
      else w.whatsapp_sent_at
    created_at := w.created_at
    updated_at := now }

/-- updateViolation: NotFound if the id is missing; NotFound if a supplied
student_id does not resolve; otherwise applies the partial update and returns
the updated row.  Errors are thrown before the UPDATE, so the store half of
the pair is unchanged on every error. -/
def updateViolation (db : DB) (input : UpdateViolationInput) (now : Int) :
    Except String Violation × DB :=
  match findViolation db input.id with
  | none => (Except.error (msgViolationNotFound input.id), db)
  | some ex =>
    match input.student_id with
    | some sid =>
      if studentExists db sid then
        (Except.ok (applySet input ex now ex),
         { db with violations :=
            db.violations.map (fun w => if w.id == input.id then applySet input ex now w else w) })
      else (Except.error (msgStudentNotFound sid), db)
    | none =>
      (Except.ok (applySet input ex now ex),
       { db with violations :=
          db.violations.map (fun w => if w.id == input.id then applySet input ex now w else w) })

/-- getViolationsByStudent: NotFound if the student id does not resolve,
otherwise that student rows ordered by violation_time descending. -/
def getViolationsByStudent (db : DB) (studentId : Nat) : Except String (List Violation) :=
  if studentExists db studentId then
    Except.ok (sortByTimeDesc (db.violations.filter (fun v => v.student_id == studentId)))
  else Except.error (msgStudentNotFound studentId)

/-- deleteStudent (src/handlers students): first counts referencing
violations and throws a conflict error naming them; then deletes and throws
NotFound when no row was deleted. -/
def deleteStudent (db : DB) (i : Nat) : Except String Unit × DB :=
  if 0 < (db.violations.filter (fun v => v.student_id == i)).length then
    (Except.error msgCannotDeleteStudent, db)
  else if studentExists db i then
    (Except.ok (), { db with students := db.students.filter (fun st => !(st.id == i)) })
  else (Except.error msgStudentNotFoundPlain, db)

/-- markWhatsAppSent: UPDATE violations SET whatsapp_sent = true,
whatsapp_sent_at = now WHERE id = violationId.  The messageId argument is
accepted and unused, exactly as in the source; zero matched rows is not an
error. -/
def markWhatsAppSent (db : DB) (violationId : Nat) (messageId : String) (now : Int) : DB :=
  let _ := messageId
  { db with violations :=
      db.violations.map (fun v =>
        if v.id == violationId then
          { v with whatsapp_sent := true, whatsapp_sent_at := some now }
        else v) }

/-- The simulated WhatsApp message identifier `wa_<Date.now()>_<random>`. -/
def waMessageId (now : Int) (rand : String) : String :=
  "wa_" ++ toString now ++ "_" ++ rand

/-- sendWhatsAppMessage: looks the violation up; when absent returns the
failure value (never throws); otherwise simulates the gateway call, marks the
violation sent and returns the generated message id. -/
def sendWhatsAppMessage (db : DB) (input : SendWhatsAppInput) (now : Int) (rand : String) :
    SendResult × DB :=
  match findViolation db input.violation_id with
  | none => ({ success := false, error := some msgWaViolationNotFound }, db)
  | some _ =>
      let mid := waMessageId now rand
      ({ success := true, messageId := some mid },
       markWhatsAppSent db input.violation_id mid now)

/-! ### Notification composer (src/handlers whatsapp: generateViolationMessage) -/

/-- Template text up to the student name. -/
def tHeader : String :=
  "Assalamu\x27alaikum Bapak/Ibu,\n\nKami dari pihak sekolah ingin memberitahukan bahwa anak Bapak/Ibu:\n\nNama: "

/-- Template text between name and class. -/
def tKelas : String := "\nKelas: "

/-- Template text between class and NISN. -/
def tNisn : String := "\nNISN: "

/-- Template text between NISN and the formatted date. -/
def tTelah : String := "\n\nTelah melakukan pelanggaran pada:\nHari/Tanggal: "

/-- Template text between date and time. -/
def tWaktu : String := "\nWaktu: "

/-- Template text between time and violation type. -/
def tJenis : String := "\nJenis Pelanggaran: "

/-- Template text between violation type and location. -/
def tLokasi : String := "\nLokasi: "

/-- Conditional description line marker. -/
def tKet : String := "\nKeterangan: "

/-- Conditional photo line marker. -/
def tBukti : String := "\n\nBukti foto: "

/-- Closing template text. -/
def tFooter : String :=
  "\n\nMohon untuk memberikan pembinaan kepada anak Bapak/Ibu di rumah.\n\nTerima kasih atas perhatiannya.\n\nHormat kami,\nSekolah"

/-- JavaScript truthiness of a nullable string: non-null and non-empty. -/
def strTruthy (s : Option String) : Bool :=
  match s with
  | some t => t != ""
  | none => false

/-- The conditional Keterangan segment: appended only when description is
truthy (`if (violation.description)`). -/
def descSeg (v : Violation) : String :=
  match v.description with
  | some s => if s == "" then "" else tKet ++ s
  | none => ""

/-- The conditional Bukti foto segment: appended only when photo_url is
truthy (`if (violation.photo_url)`). -/
def photoSeg (v : Violation) : String :=
  match v.photo_url with
  | some s => if s == "" then "" else tBukti ++ s
  | none => ""

/-- The message template of generateViolationMessage; `d` and `t` stand for
the Intl-formatted date and time of violation_time.  The Keterangan and Bukti
foto lines are appended only when description / photo_url are truthy. -/
def buildMessage (st : Student) (v : Violation) (d t : String) : String :=
  tHeader ++ st.name ++ tKelas ++ st.class_ ++ tNisn ++ st.nisn ++ tTelah ++ d ++ tWaktu ++ t ++
  tJenis ++ v.violation_type ++ tLokasi ++ v.location ++
  descSeg v ++ photoSeg v ++ tFooter

/-- generateViolationMessage: inner-joins the violation with its student
(zero rows, i.e. missing violation or missing student, throws the
`Violation not found` error) and renders the template.  `fmtDate`/`fmtTime`
model the Intl.DateTimeFormat calls on violation_time. -/
def generateViolationMessage (db : DB) (fmtDate fmtTime : Int → String) (violationId : Nat) :
    Except String String :=
  match findViolation db violationId with
  | none => Except.error msgWaViolationNotFound
  | some v =>
    match db.students.find? (fun st => st.id == v.student_id) with
    | none => Except.error msgWaViolationNotFound
    | some st =>
        Except.ok (buildMessage st v (fmtDate v.violation_time) (fmtTime v.violation_time))

/-! ### Photo evidence handler (src/handlers photos) -/

/-- `UploadPhotoInput` from src/schema.ts. -/
structure UploadPhotoInput where
  file_data : String
  file_name : String
  deriving DecidableEq, Repr

/-- Result shape of validatePhotoFormat. -/
structure ValidationResult where
  valid : Bool
  format : Option String := none
  error : Option String := none
  deriving DecidableEq, Repr

/-- MAX_FILE_SIZE constant: 5 MiB in bytes. -/
def MAX_FILE_SIZE : Nat := 5 * 1024 * 1024

/-- ALLOWED_FORMATS constant. -/
def ALLOWED_FORMATS : List String := ["jpeg", "jpg", "png", "gif"]

/-- Error text for input that does not match the data-URL pattern. -/
def errNotDataUrl : String := "Invalid base64 image data format"

/-- Error text for a MIME format outside ALLOWED_FORMATS. -/
def errUnsupported (fmt : String) : String :=
  "Unsupported image format: " ++ fmt ++ ". Allowed formats: jpeg, jpg, png, gif"

/-- Error text for a payload failing the base64 alphabet test. -/
def errBadBase64 : String := "Invalid base64 encoding"

/-- Error text for a decoded payload over MAX_FILE_SIZE. -/
def errTooLarge : String := "File size exceeds maximum limit of 5MB"

/-- Error text for decoded bytes failing the image header check. -/
def errNotImage : String := "File does not appear to be a valid image"

/-- Error thrown by deletePhoto and getPhoto on traversal characters. -/
def errInvalidFileName : String := "Invalid filename"

/-- The literal `data:image/` head of the accepted data-URL pattern. -/
def dataUrlHead : String := "data:image/"

/-- The literal `;base64,` marker of the accepted data-URL pattern. -/
def b64Marker : String := ";base64,"

/-- JavaScript regex word character (the `\w` class). -/
def isWordChar (c : Char) : Bool := c.isAlphanum || c == '_'

/-- The anchored match `^data:image\/(\w+);base64,`: on success yields the
lowercased format group and the remaining payload (the greedy `\w+` is the
maximal word-character run, exactly `takeWhile`). -/
def parseDataUrl (s : String) : Option (String × String) :=
  let l := s.data
  if l.take dataUrlHead.data.length = dataUrlHead.data then
    let rest := l.drop dataUrlHead.data.length
    let fmt := rest.takeWhile isWordChar
    let after := rest.drop fmt.length
    if fmt ≠ [] ∧ after.take b64Marker.data.length = b64Marker.data then
      some (String.mk (fmt.map Char.toLower), String.mk (after.drop b64Marker.data.length))
    else none
  else none

/-- The `.replace(/^data:image\/\w+;base64,/, ...)` payload extraction: the
payload when the pattern matches, the input unchanged otherwise. -/
def stripDataUrlHead (s : String) : String :=
  match parseDataUrl s with
  | some (_, payload) => payload
  | none => s

/-- A character of the strict base64 body alphabet `[A-Za-z0-9+/]`. -/
def isB64Char (c : Char) : Bool := c.isAlphanum || c == '+' || c == '/'

/-- The test `^[A-Za-z0-9+/]*={0,2}$`: at most two trailing `=` padding
characters after a body drawn from the base64 alphabet. -/
def b64AlphaOk (s : String) : Bool :=
  let pad := (s.data.reverse.takeWhile (fun c => c == '=')).length
  decide (pad ≤ 2) && ((s.data.take (s.data.length - pad)).all isB64Char)

/-- Numeric value of one base64 alphabet character. -/
def b64Val (c : Char) : Nat :=
  if c.isUpper then c.toNat - 65
  else if c.isLower then c.toNat - 97 + 26
  else if c.isDigit then c.toNat - 48 + 52
  else if c == '+' then 62
  else if c == '/' then 63
  else 0

/-- Bit-packing core of base64 decoding: accumulate six bits per character
and emit every completed byte, discarding a trailing partial byte. -/
def b64DecodeAux : List Char → Nat → Nat → List Nat
  | [], _, _ => []
  | c :: cs, acc, nbits =>
    let acc2 := acc * 64 + b64Val c
    let nb := nbits + 6
    if 8 ≤ nb then
      (acc2 / 2 ^ (nb - 8)) % 256 :: b64DecodeAux cs (acc2 % 2 ^ (nb - 8)) (nb - 8)
    else b64DecodeAux cs acc2 nb

/-- `Buffer.from(s, "base64")` on alphabet-valid input: padding is ignored
and the six-bit groups are packed into bytes. -/
def b64Decode (s : String) : List Nat :=
  b64DecodeAux (s.data.filter (fun c => c != '=')) 0 0

/-- JPEG magic bytes FF D8 FF. -/
def jpegMagic : List Nat := [255, 216, 255]

/-- The eight PNG signature bytes 89 50 4E 47 0D 0A 1A 0A. -/
def pngMagic : List Nat := [137, 80, 78, 71, 13, 10, 26, 10]

/-- Byte codes of the ASCII text GIF87a. -/
def gif87Magic : List Nat := [71, 73, 70, 56, 55, 97]

/-- Byte codes of the ASCII text GIF89a. -/
def gif89Magic : List Nat := [71, 73, 70, 56, 57, 97]

/-- validateImageHeader: any buffer shorter than eight bytes is rejected
outright; otherwise the format-specific magic prefix is compared.  The GIF
branch goes through Node ascii decoding, which masks each byte to 7 bits. -/
def validateImageHeader (buffer : List Nat) (format : String) : Bool :=
  if buffer.length < 8 then false
  else
    let fmt := String.mk (format.data.map Char.toLower)
    if fmt == "jpeg" || fmt == "jpg" then buffer.take 3 == jpegMagic
    else if fmt == "png" then buffer.take 8 == pngMagic
    else if fmt == "gif" then
      let header := (buffer.take 6).map (fun b => b % 128)
      header == gif87Magic || header == gif89Magic
    else false

/-- validatePhotoFormat: data-URL parse, allowed-format check, base64
alphabet check (skipped for an empty payload), decoded-size ceiling, then the
magic-header check. -/
def validatePhotoFormat (fileData : String) : ValidationResult :=
  match parseDataUrl fileData with
  | none => { valid := false, error := some errNotDataUrl }
  | some (fmt, payload) =>
    if !(ALLOWED_FORMATS.contains fmt) then
      { valid := false, error := some (errUnsupported fmt) }
    else if payload != "" && !(b64AlphaOk payload) then
      { valid := false, error := some errBadBase64 }
    else
      let buffer := b64Decode payload
      if MAX_FILE_SIZE < buffer.length then
        { valid := false, error := some errTooLarge }
      else if !(validateImageHeader buffer fmt) then
        { valid := false, error := some errNotImage }
      else { valid := true, format := some fmt }

/-- The blob store rooted at uploads/photos, keyed by generated filename. -/
abbrev PhotoStore := List (String × List Nat)

/-- Substring test (`String.prototype.includes`). -/
def strContains (hay pat : String) : Bool := decide (pat.data <:+: hay.data)

/-- The two-dot traversal fragment. -/
def dotdotStr : String := ".."

/-- The forward slash separator. -/
def slashStr : String := "/"

/-- The backslash separator. -/
def backslashStr : String := "\\"

/-- The traversal/separator rejection shared by getPhoto and deletePhoto. -/
def badFileName (f : String) : Bool :=
  strContains f dotdotStr || strContains f slashStr || strContains f backslashStr

/-- `writeFile` into the blob store (overwrites an existing entry). -/
def writePhoto (store : PhotoStore) (fileName : String) (bytes : List Nat) : PhotoStore :=
  store.filter (fun e => !(e.1 == fileName)) ++ [(fileName, bytes)]

/-- Fallback error text of uploadPhoto when validation carries no message. -/
def invalidPhotoFallback : String := "Invalid photo format"

/-- Public path root returned by uploadPhoto. -/
def urlRoot : String := "/uploads/photos/"

/-- Fallback extension of uploadPhoto when validation carries no format. -/
def jpgDefault : String := "jpg"

/-- uploadPhoto: validates (propagating the validation error), decodes,
re-checks the size ceiling, derives `{Date.now()}_{file_name}.{format}` and
persists the bytes.  `now` stands for the millisecond clock reading. -/
def uploadPhoto (store : PhotoStore) (input : UploadPhotoInput) (now : Nat) :
    Except String (String × String) × PhotoStore :=
  let validation := validatePhotoFormat input.file_data
  if !validation.valid then
    (Except.error (validation.error.getD invalidPhotoFallback), store)
  else
    let buffer := b64Decode (stripDataUrlHead input.file_data)
    if MAX_FILE_SIZE < buffer.length then (Except.error errTooLarge, store)
    else
      let fileName := toString now ++ "_" ++ input.file_name ++ "." ++ (validation.format.getD jpgDefault)
      (Except.ok (urlRoot ++ fileName, fileName), writePhoto store fileName buffer)

/-- getPhoto: traversal characters make the guard throw inside the try, which
the catch converts to null; a missing file is also null; otherwise the stored
bytes. -/
def getPhoto (store : PhotoStore) (fileName : String) : Option (List Nat) :=
  if badFileName fileName then none
  else (store.find? (fun e => e.1 == fileName)).map (fun e => e.2)

/-- deletePhoto: the traversal guard throws before the try block (a real
error); deleting an absent file completes silently. -/
def deletePhoto (store : PhotoStore) (fileName : String) : Except String Unit × PhotoStore :=
  if badFileName fileName then (Except.error errInvalidFileName, store)
  else (Except.ok (), store.filter (fun e => !(e.1 == fileName)))

/-! ### Substring-occurrence machinery for the composer claims -/

/-- The description marker substring tested by the spec. -/
def ketSub : String := "Keterangan:"

/-- The photo marker substring tested by the spec. -/
def buktiSub : String := "Bukti foto:"

/-- String append acts componentwise on the underlying character lists. -/
theorem data_append (s t : String) : (s ++ t).data = s.data ++ t.data := rfl

/-- Characterization of strContains through list infixes. -/
theorem strContains_iff (hay pat : String) :
    strContains hay pat = true ↔ pat.data <:+: hay.data := by
  simp [strContains]

/-- A prefix of a concatenation splits at the boundary: the part reaching
into `a` is a prefix of `a` and the remainder is a prefix of `b`. -/
theorem splitPre {α : Type} (a : List α) :
    ∀ p b : List α, p <+: a ++ b → p.take a.length <+: a ∧ p.drop a.length <+: b := by
  induction a with
  | nil => intro p b h; simpa using h
  | cons c a2 ih =>
    intro p b h
    cases p with
    | nil => simp
    | cons d p2 =>
      rw [List.cons_append, List.cons_prefix_cons] at h
      obtain ⟨rfl, h2⟩ := h
      obtain ⟨h3, h4⟩ := ih p2 b h2
      refine ⟨?_, ?_⟩
      · simpa [List.cons_prefix_cons] using h3
      · simpa using h4

/-- An occurrence of `p` inside `a ++ b` lies inside `a`, lies inside `b`,
or straddles the boundary: a nonempty proper front of `p` is a suffix of `a`
while the rest of `p` begins `b`. -/
theorem splitInf {α : Type} (a : List α) :
    ∀ p b : List α, p <:+: a ++ b →
      p <:+: a ∨ p <:+: b ∨
        ∃ k, 0 < k ∧ k < p.length ∧ p.take k <:+ a ∧ p.drop k <+: b := by
  induction a with
  | nil => intro p b h; exact Or.inr (Or.inl (by simpa using h))
  | cons c a2 ih =>
    intro p b h
    rw [List.cons_append] at h
    rcases List.infix_cons_iff.1 h with hpre | hinf
    · have hsplit := splitPre (c :: a2) p b (by simpa using hpre)
      by_cases hlen : p.length ≤ (c :: a2).length
      · have heq : p.take (c :: a2).length = p := List.take_of_length_le hlen
        exact Or.inl (heq ▸ hsplit.1).isInfix
      · push_neg at hlen
        refine Or.inr (Or.inr ⟨(c :: a2).length, by simp, hlen, ?_, hsplit.2⟩)
        have hlen2 : (p.take (c :: a2).length).length = (c :: a2).length := by
          rw [List.length_take]
          exact min_eq_left hlen.le
        have heq : p.take (c :: a2).length = c :: a2 := hsplit.1.eq_of_length hlen2
        rw [heq]
    · rcases ih p b hinf with h1 | h1 | ⟨k, hk0, hklt, hsuf, hpre2⟩
      · exact Or.inl (List.infix_cons h1)
      · exact Or.inr (Or.inl h1)
      · exact Or.inr (Or.inr ⟨k, hk0, hklt, hsuf.trans (List.suffix_cons c a2), hpre2⟩)

/-- A nonempty prefix pins down the head of the longer list. -/
theorem headPre {α : Type} {l1 l2 : List α} (h : l1 <+: l2) (hne : l1 ≠ []) :
    l2.head? = l1.head? := by
  cases l1 with
  | nil => exact absurd rfl hne
  | cons a u =>
    obtain ⟨r, rfl⟩ := h
    rfl

/-- Decidable certificate that the pattern `p` neither occurs inside the
fixed chunk `c` nor can begin a straddling occurrence there: no nonempty
proper front of `p` ends `c`. -/
def chunkSafe (c p : List Char) : Bool :=
  decide (¬ p <:+: c) &&
    (List.range p.length).all (fun k => k == 0 || decide (¬ p.take k <:+ c))

/-- A safe chunk carries no full occurrence of the pattern. -/
theorem chunkSafe_no_occur {c p : List Char} (h : chunkSafe c p = true) : ¬ p <:+: c := by
  simp only [chunkSafe, Bool.and_eq_true, decide_eq_true_eq] at h
  exact h.1

/-- A safe chunk admits no straddling front of the pattern. -/
theorem chunkSafe_no_front {c p : List Char} (h : chunkSafe c p = true)
    {k : Nat} (hk0 : 0 < k) (hklt : k < p.length) : ¬ p.take k <:+ c := by
  simp only [chunkSafe, Bool.and_eq_true, decide_eq_true_eq, List.all_eq_true,
    List.mem_range] at h
  have h3 := h.2 k hklt
  simp only [Bool.or_eq_true, beq_iff_eq, decide_eq_true_eq] at h3
  rcases h3 with h4 | h4
  · omega
  · exact h4

/-- Prepending a safe chunk preserves absence of the pattern. -/
theorem step_chunk {p c rest : List Char} (hc : chunkSafe c p = true)
    (hr : ¬ p <:+: rest) : ¬ p <:+: c ++ rest := by
  intro h
  rcases splitInf c p rest h with h1 | h1 | ⟨k, hk0, hklt, hsuf, _⟩
  · exact chunkSafe_no_occur hc h1
  · exact hr h1
  · exact chunkSafe_no_front hc hk0 hklt hsuf

/-- Prepending an arbitrary clean field preserves absence of a
newline-free pattern whenever the following text starts with a newline. -/
theorem step_field {p f rest : List Char} (hnl : '\n' ∉ p)
    (hf : ¬ p <:+: f) (hr : ¬ p <:+: rest) (hhead : rest.head? = some '\n') :
    ¬ p <:+: f ++ rest := by
  intro h
  rcases splitInf f p rest h with h1 | h1 | ⟨k, hk0, hklt, _, hpre⟩
  · exact hf h1
  · exact hr h1
  · have hne : p.drop k ≠ [] := by
      intro hcon
      rw [List.drop_eq_nil_iff] at hcon
      omega
    have hh := headPre hpre hne
    rw [hhead] at hh
    have hmem : '\n' ∈ p.drop k := List.mem_of_mem_head? (by rw [← hh]; simp)
    exact hnl (List.drop_subset k p hmem)

/-- Infix occurrences survive extending the text on the left. -/
theorem infApL {α : Type} (a : List α) {x y : List α} (h : x <:+: y) : x <:+: a ++ y := by
  obtain ⟨s, t, rfl⟩ := h
  exact ⟨a ++ s, t, by simp⟩

/-- Infix occurrences survive extending the text on the right. -/
theorem infApR {α : Type} (b : List α) {x y : List α} (h : x <:+: y) : x <:+: y ++ b := by
  obtain ⟨s, t, rfl⟩ := h
  exact ⟨s, t ++ b, by simp⟩

/-- Right-associated character-level decomposition of the composed message. -/
theorem buildMessage_data (st : Student) (v : Violation) (d t : String) :
    (buildMessage st v d t).data =
      tHeader.data ++ (st.name.data ++ (tKelas.data ++ (st.class_.data ++ (tNisn.data ++
        (st.nisn.data ++ (tTelah.data ++ (d.data ++ (tWaktu.data ++ (t.data ++
          (tJenis.data ++ (v.violation_type.data ++ (tLokasi.data ++ (v.location.data ++
            ((descSeg v).data ++ ((photoSeg v).data ++ tFooter.data))))))))))))))) := by
  simp [buildMessage, data_append, List.append_assoc]

/-- Negation transport for strContains. -/
theorem strContains_false {hay pat : String} (h : strContains hay pat = false) :
    ¬ pat.data <:+: hay.data := by
  simpa [strContains] using h

/-- Truthiness unfolds to existence of a nonempty carried string. -/
theorem strTruthy_iff (o : Option String) : strTruthy o = true ↔ ∃ s, o = some s ∧ s ≠ "" := by
  cases o <;> simp [strTruthy]

/-- Character-level form of a present description segment. -/
theorem descSeg_data {v : Violation} {s : String} (h : v.description = some s) (hs : s ≠ "") :
    (descSeg v).data = tKet.data ++ s.data := by
  simp [descSeg, h, hs, data_append]

/-- Character-level form of a present photo segment. -/
theorem photoSeg_data {v : Violation} {s : String} (h : v.photo_url = some s) (hs : s ≠ "") :
    (photoSeg v).data = tBukti.data ++ s.data := by
  simp [photoSeg, h, hs, data_append]

/-- Character-level form of an absent description segment. -/
theorem descSeg_data_empty {v : Violation} (h : strTruthy v.description = false) :
    (descSeg v).data = [] := by
  cases hd : v.description with
  | none => simp [descSeg, hd]
  | some s =>
    rw [hd] at h
    simp only [strTruthy, bne_eq_false_iff_eq] at h
    simp [descSeg, hd, h]

/-- Character-level form of an absent photo segment. -/
theorem photoSeg_data_empty {v : Violation} (h : strTruthy v.photo_url = false) :
    (photoSeg v).data = [] := by
  cases hp : v.photo_url with
  | none => simp [photoSeg, hp]
  | some s =>
    rw [hp] at h
    simp only [strTruthy, bne_eq_false_iff_eq] at h
    simp [photoSeg, hp, h]

/-- The photo tail of the message always starts with a newline. -/
theorem photoTail_head (v : Violation) :
    ((photoSeg v).data ++ tFooter.data).head? = some '\n' := by
  by_cases hp : strTruthy v.photo_url = true
  · obtain ⟨s, hs, hne⟩ := (strTruthy_iff v.photo_url).1 hp
    rw [photoSeg_data hs hne, List.append_assoc]
    rfl
  · rw [photoSeg_data_empty (Bool.not_eq_true _ ▸ hp), List.nil_append]
    rfl

/-- The conditional tail of the message always starts with a newline. -/
theorem tail_head (v : Violation) :
    ((descSeg v).data ++ ((photoSeg v).data ++ tFooter.data)).head? = some '\n' := by
  by_cases hd : strTruthy v.description = true
  · obtain ⟨s, hs, hne⟩ := (strTruthy_iff v.description).1 hd
    rw [descSeg_data hs hne, List.append_assoc]
    rfl
  · rw [descSeg_data_empty (Bool.not_eq_true _ ▸ hd), List.nil_append]
    exact photoTail_head v

/-- Absence of a newline-free pattern in the photo tail. -/
theorem photoTail_no_occur {p : List Char} (v : Violation) (hnl : '\n' ∉ p)
    (hF : chunkSafe tFooter.data p = true)
    (hB : strTruthy v.photo_url = true → chunkSafe tBukti.data p = true)
    (f9 : ∀ s, v.photo_url = some s → ¬ p <:+: s.data) :
    ¬ p <:+: (photoSeg v).data ++ tFooter.data := by
  cases hu : v.photo_url with
  | none => simpa [photoSeg, hu] using chunkSafe_no_occur hF
  | some s =>
    by_cases hs : s = ""
    · simpa [photoSeg, hu, hs] using chunkSafe_no_occur hF
    · have hBt : chunkSafe tBukti.data p = true := hB (by simp [strTruthy, hu, hs])
      have hstep : ¬ p <:+: s.data ++ tFooter.data :=
        step_field hnl (f9 s hu) (chunkSafe_no_occur hF) (by rfl)
      have hfull := step_chunk hBt hstep
      simpa [photoSeg, hu, hs, data_append, List.append_assoc] using hfull

/-- Absence of a newline-free pattern in the whole conditional tail. -/
theorem tail_no_occur {p : List Char} (v : Violation) (hnl : '\n' ∉ p)
    (hF : chunkSafe tFooter.data p = true)
    (hK : strTruthy v.description = true → chunkSafe tKet.data p = true)
    (hB : strTruthy v.photo_url = true → chunkSafe tBukti.data p = true)
    (f8 : ∀ s, v.description = some s → ¬ p <:+: s.data)
    (f9 : ∀ s, v.photo_url = some s → ¬ p <:+: s.data) :
    ¬ p <:+: (descSeg v).data ++ ((photoSeg v).data ++ tFooter.data) := by
  have hPT := photoTail_no_occur v hnl hF hB f9
  cases hu : v.description with
  | none => simpa [descSeg, hu] using hPT
  | some s =>
    by_cases hs : s = ""
    · simpa [descSeg, hu, hs] using hPT
    · have hKt : chunkSafe tKet.data p = true := hK (by simp [strTruthy, hu, hs])
      have hstep : ¬ p <:+: s.data ++ ((photoSeg v).data ++ tFooter.data) :=
        step_field hnl (f8 s hu) hPT (photoTail_head v)
      have hfull := step_chunk hKt hstep
      simpa [descSeg, hu, hs, data_append, List.append_assoc] using hfull

/-- Master lemma: a newline-free pattern that is safe for every template
chunk and absent from every interpolated value does not occur in the composed
message. -/
theorem build_no_occur {p : List Char} (st : Student) (v : Violation) (d t : String)
    (hnl : '\n' ∉ p)
    (hH : chunkSafe tHeader.data p = true) (hKe : chunkSafe tKelas.data p = true)
    (hN : chunkSafe tNisn.data p = true) (hT : chunkSafe tTelah.data p = true)
    (hW : chunkSafe tWaktu.data p = true) (hJ : chunkSafe tJenis.data p = true)
    (hL : chunkSafe tLokasi.data p = true) (hF : chunkSafe tFooter.data p = true)
    (hK : strTruthy v.description = true → chunkSafe tKet.data p = true)
    (hB : strTruthy v.photo_url = true → chunkSafe tBukti.data p = true)
    (f1 : ¬ p <:+: st.name.data) (f2 : ¬ p <:+: st.class_.data)
    (f3 : ¬ p <:+: st.nisn.data) (f4 : ¬ p <:+: d.data) (f5 : ¬ p <:+: t.data)
    (f6 : ¬ p <:+: v.violation_type.data) (f7 : ¬ p <:+: v.location.data)
    (f8 : ∀ s, v.description = some s → ¬ p <:+: s.data)
    (f9 : ∀ s, v.photo_url = some s → ¬ p <:+: s.data) :
    ¬ p <:+: (buildMessage st v d t).data := by
  have h16 := tail_no_occur v hnl hF hK hB f8 f9
  have h15 := step_field hnl f7 h16 (tail_head v)
  have h14 := step_chunk hL h15
  have h13 := step_field hnl f6 h14 (by rfl)
  have h12 := step_chunk hJ h13
  have h11 := step_field hnl f5 h12 (by rfl)
  have h10 := step_chunk hW h11
  have h9 := step_field hnl f4 h10 (by rfl)
  have h8 := step_chunk hT h9
  have h7 := step_field hnl f3 h8 (by rfl)
  have h6 := step_chunk hN h7
  have h5 := step_field hnl f2 h6 (by rfl)
  have h4 := step_chunk hKe h5
  have h3 := step_field hnl f1 h4 (by rfl)
  have h2 := step_chunk hH h3
  rw [buildMessage_data]
  exact h2

/-- Positive direction for the description: a present nonempty description
puts both the marker and the literal description text into the message. -/
theorem build_contains_desc (st : Student) (v : Violation) (d t : String) {s : String}
    (h : v.description = some s) (hs : s ≠ "") :
    ketSub.data <:+: (buildMessage st v d t).data ∧
      s.data <:+: (buildMessage st v d t).data := by
  rw [buildMessage_data]
  constructor
  · iterate 14 apply infApL
    rw [descSeg_data h hs, List.append_assoc]
    exact infApR _ (by decide)
  · iterate 14 apply infApL
    rw [descSeg_data h hs, List.append_assoc]
    apply infApL
    exact ⟨[], (photoSeg v).data ++ tFooter.data, by simp⟩

/-- Positive direction for the photo: a present nonempty photo URL puts both
the marker and the literal URL into the message. -/
theorem build_contains_photo (st : Student) (v : Violation) (d t : String) {s : String}
    (h : v.photo_url = some s) (hs : s ≠ "") :
    buktiSub.data <:+: (buildMessage st v d t).data ∧
      s.data <:+: (buildMessage st v d t).data := by
  rw [buildMessage_data]
  constructor
  · iterate 15 apply infApL
    rw [photoSeg_data h hs, List.append_assoc]
    exact infApR _ (by decide)
  · iterate 15 apply infApL
    rw [photoSeg_data h hs, List.append_assoc]
    apply infApL
    exact ⟨[], tFooter.data, by simp⟩

/-! ### Shared invariants and shape lemmas -/

/-- The spec invariant: whatsapp_sent_at is non-null iff whatsapp_sent. -/
def waIff (v : Violation) : Prop :=
  v.whatsapp_sent_at ≠ none ↔ v.whatsapp_sent = true

instance (v : Violation) : Decidable (waIff v) :=
  inferInstanceAs (Decidable (v.whatsapp_sent_at ≠ none ↔ v.whatsapp_sent = true))

/-- Successful updateViolation runs always go through the first matching row
`ex`: the returned record is the SET transform of `ex` and the store applies
the same SET to every row with the target id. -/
theorem updateViolation_ok_shape {db : DB} {input : UpdateViolationInput} {now : Int}
    {v : Violation} (h : (updateViolation db input now).1 = Except.ok v) :
    ∃ ex, findViolation db input.id = some ex ∧ v = applySet input ex now ex ∧
      (updateViolation db input now).2 =
        { db with violations :=
            (db.violations.map
              (fun w => if w.id == input.id then applySet input ex now w else w)) } := by
  cases hfind : findViolation db input.id with
  | none =>
    simp only [updateViolation, hfind] at h
    exact absurd h (by simp)
  | some ex =>
    refine ⟨ex, rfl, ?_, ?_⟩
    · simp only [updateViolation, hfind] at h
      cases hsid : input.student_id with
      | none =>
        simp only [hsid] at h
        simpa using h.symm
      | some sid =>
        simp only [hsid] at h
        by_cases hst : studentExists db sid
        · rw [if_pos hst] at h
          simpa using h.symm
        · rw [if_neg hst] at h
          exact absurd h (by simp)
    · simp only [updateViolation, hfind]
      cases hsid : input.student_id with
      | none => simp only [hsid]
      | some sid =>
        simp only [hsid]
        by_cases hst : studentExists db sid
        · rw [if_pos hst]
        · simp only [updateViolation, hfind, hsid] at h
          rw [if_neg hst] at h
          exact absurd h (by simp)

/-! ### Shared concrete fixtures -/

/-- Example student. -/
def stA : Student :=
  { id := 1, nisn := "1234567890", name := "Ahmad Budi", class_ := "12 IPA 1",
    parent_name := "Bapak Budi", parent_whatsapp := "081234567890",
    created_at := 0, updated_at := 0 }

/-- Example violation of stA, WhatsApp not yet sent. -/
def vioA : Violation :=
  { id := 1, student_id := 1, violation_type := "Terlambat", location := "Gerbang Sekolah",
    description := none, photo_url := none, violation_time := 100, reported_by := 7,
    whatsapp_sent := false, whatsapp_sent_at := none, created_at := 0, updated_at := 0 }

/-- A second, later violation of stA. -/
def vioB : Violation := { vioA with id := 2, violation_time := 200 }

/-- Example store: one student, one reporter, two violations. -/
def dbA : DB := { students := [stA], users := [7], violations := [vioA, vioB], nextVid := 3 }

/-! ### C10 -/

/-- C10 (confirmed): for a violation id absent from the store,
markWhatsAppSent completes without any error (its type is total and the
UPDATE matches zero rows) and leaves every stored violation unchanged,
whereas updateViolation on the same id signals NotFound. -/
theorem c10_mark_missing_silent (db : DB) (vid : Nat) (mid : String) (now : Int)
    (h : findViolation db vid = none) :
    markWhatsAppSent db vid mid now = db ∧
    (updateViolation db { id := vid } now).1 = Except.error (msgViolationNotFound vid) := by
  have hall : ∀ w ∈ db.violations, (w.id == vid) = false := by
    rw [findViolation, List.find?_eq_none] at h
    intro w hw
    simpa using h w hw
  constructor
  · unfold markWhatsAppSent
    have hmap :
        db.violations.map (fun w =>
          if w.id == vid then { w with whatsapp_sent := true, whatsapp_sent_at := some now }
          else w) = db.violations := by
      have hcg := List.map_congr_left (l := db.violations)
        (f := fun w =>
          if w.id == vid then { w with whatsapp_sent := true, whatsapp_sent_at := some now }
          else w)
        (g := id) (fun w hw => by simp [hall w hw])
      rw [hcg, List.map_id]
    rw [hmap]
  · unfold updateViolation
    rw [show findViolation db ({ id := vid } : UpdateViolationInput).id = none from h]

/-- C10 witness at a concrete store and missing id. -/
theorem c10_witness :
    markWhatsAppSent dbA 99 "m1" 60 = dbA ∧
    (updateViolation dbA { id := 99 } 60).1 = Except.error (msgViolationNotFound 99) :=
  c10_mark_missing_silent dbA 99 "m1" 60 (by decide)

/-! ### C9 -/

/-- C9 (confirmed): deleteStudent conflicts (naming existing violations) and
keeps the store intact when any violation references the student; with no
referencing violation it succeeds and removes exactly that student; and on a
missing id (with no referencing violation, guaranteed by the foreign key) it
fails with the NotFound error, store unchanged. -/
theorem c9_delete_student (db : DB) (sid : Nat) :
    (studentExists db sid = true → (∃ v ∈ db.violations, v.student_id = sid) →
      deleteStudent db sid = (Except.error msgCannotDeleteStudent, db)) ∧
    ((∀ v ∈ db.violations, v.student_id ≠ sid) → studentExists db sid = true →
      (deleteStudent db sid).1 = Except.ok () ∧
      studentExists (deleteStudent db sid).2 sid = false ∧
      (∀ st ∈ db.students, st.id ≠ sid → st ∈ (deleteStudent db sid).2.students) ∧
      (deleteStudent db sid).2.users = db.users ∧
      (deleteStudent db sid).2.violations = db.violations) ∧
    ((∀ v ∈ db.violations, v.student_id ≠ sid) → studentExists db sid = false →
      deleteStudent db sid = (Except.error msgStudentNotFoundPlain, db)) := by
  refine ⟨?_, ?_, ?_⟩
  · rintro _hex ⟨v, hv, hvs⟩
    have hmem : v ∈ db.violations.filter (fun w => w.student_id == sid) :=
      List.mem_filter.2 ⟨hv, by simp [hvs]⟩
    have hpos : 0 < (db.violations.filter (fun w => w.student_id == sid)).length :=
      List.length_pos_of_mem hmem
    unfold deleteStudent
    rw [if_pos hpos]
  · intro hforall hex
    have hnil : db.violations.filter (fun w => w.student_id == sid) = [] := by
      rw [List.filter_eq_nil_iff]
      intro w hw
      simpa using hforall w hw
    unfold deleteStudent
    rw [hnil]
    simp only [List.length_nil, lt_irrefl, if_false]
    rw [if_pos hex]
    refine ⟨rfl, ?_, ?_, rfl, rfl⟩
    · unfold studentExists
      rw [List.any_eq_false]
      intro st hst
      have := (List.mem_filter.1 hst).2
      simpa using this
    · intro st hst hne
      exact List.mem_filter.2 ⟨hst, by simpa using hne⟩
  · intro hforall hex
    have hnil : db.violations.filter (fun w => w.student_id == sid) = [] := by
      rw [List.filter_eq_nil_iff]
      intro w hw
      simpa using hforall w hw
    unfold deleteStudent
    rw [hnil]
    simp only [List.length_nil, lt_irrefl, if_false]
    rw [if_neg (by simp [hex])]

/-- C9 witness: conflict on the referenced student of dbA; success after the
violations are gone; NotFound for a fresh id. -/
theorem c9_witness :
    deleteStudent dbA 1 = (Except.error msgCannotDeleteStudent, dbA) ∧
    (deleteStudent { dbA with violations := [] } 1).1 = Except.ok () ∧
    studentExists (deleteStudent { dbA with violations := [] } 1).2 1 = false ∧
    deleteStudent { dbA with violations := [] } 99 =
      (Except.error msgStudentNotFoundPlain, { dbA with violations := [] }) := by
  have h1 := (c9_delete_student dbA 1).1 (by decide) ⟨vioA, by decide, by decide⟩
  have h2 := (c9_delete_student { dbA with violations := [] } 1).2.1
    (by intro v hv; cases hv) (by decide)
  have h3 := (c9_delete_student { dbA with violations := [] } 99).2.2
    (by intro v hv; cases hv) (by decide)
  exact ⟨h1, h2.1, h2.2.1, h3⟩

/-! ### C8 -/

/-- A minimal valid PNG data-URL: the payload decodes to exactly the eight
PNG signature bytes. -/
def pngDataUrl : String := "data:image/png;base64,iVBORw0KGgo="

/-- Upload input reused for both calls. -/
def uploadInpA : UploadPhotoInput := { file_data := pngDataUrl, file_name := "photo" }

/-- C8 (code_bug): the generated storage name is `{Date.now()}_{name}.{ext}`,
so two successful uploads observing the same millisecond clock value return
the identical fileName, contradicting the unique-name contract (and the
sources own `Generate unique filename` comment). -/
theorem c8_same_millisecond_collision :
    (uploadPhoto [] uploadInpA 1000).1 =
      Except.ok ("/uploads/photos/1000_photo.png", "1000_photo.png") ∧
    (uploadPhoto (uploadPhoto [] uploadInpA 1000).2 uploadInpA 1000).1 =
      Except.ok ("/uploads/photos/1000_photo.png", "1000_photo.png") :=
  ⟨by decide, by decide⟩

/-! ### C7 -/

/-- C7 (confirmed): a fileName containing a traversal fragment or separator
makes getPhoto return null (never an error) and deletePhoto fail fast with
the InvalidInput error; a well-formed fileName naming no stored file makes
getPhoto return null and deletePhoto complete silently, store untouched. -/
theorem c7_photo_access (store : PhotoStore) (f : String) :
    (badFileName f = true →
      getPhoto store f = none ∧
      deletePhoto store f = (Except.error errInvalidFileName, store)) ∧
    (badFileName f = false → store.find? (fun e => e.1 == f) = none →
      getPhoto store f = none ∧ deletePhoto store f = (Except.ok (), store)) := by
  constructor
  · intro hbad
    exact ⟨by simp [getPhoto, hbad], by simp [deletePhoto, hbad]⟩
  · intro hgood habs
    refine ⟨by simp [getPhoto, hgood, habs], ?_⟩
    have hfil : store.filter (fun e => !(e.1 == f)) = store := by
      apply List.filter_eq_self.2
      intro e he
      rw [List.find?_eq_none] at habs
      simpa using habs e he
    simp [deletePhoto, hgood, hfil]

/-- Example photo store. -/
def storeA : PhotoStore := [("a.png", [1, 2])]

/-- C7 witness at a traversal name and at a well-formed missing name. -/
theorem c7_witness :
    getPhoto storeA "../a.png" = none ∧
    deletePhoto storeA "../a.png" = (Except.error errInvalidFileName, storeA) ∧
    getPhoto storeA "b.png" = none ∧
    deletePhoto storeA "b.png" = (Except.ok (), storeA) := by
  have h1 := (c7_photo_access storeA "../a.png").1 (by decide)
  have h2 := (c7_photo_access storeA "b.png").2 (by decide) (by decide)
  exact ⟨h1.1, h1.2, h2.1, h2.2⟩

/-! ### C4 -/

/-- C4 (confirmed): sendWhatsAppMessage returns the failure value (its type
is total, so it never throws) with the store untouched when the violation id
is missing; when the violation exists it returns success with the generated
message id and, as the only store change, the target violation is marked
whatsapp_sent = true with whatsapp_sent_at = now. -/
theorem c4_send_whatsapp (db : DB) (input : SendWhatsAppInput) (now : Int) (rand : String) :
    (findViolation db input.violation_id = none →
      sendWhatsAppMessage db input now rand =
        ({ success := false, messageId := none, error := some msgWaViolationNotFound }, db)) ∧
    (∀ ex, findViolation db input.violation_id = some ex →
      (sendWhatsAppMessage db input now rand).1 =
        { success := true, messageId := some (waMessageId now rand), error := none } ∧
      (∀ w ∈ (sendWhatsAppMessage db input now rand).2.violations,
        (w.id = input.violation_id → w.whatsapp_sent = true ∧ w.whatsapp_sent_at = some now) ∧
        (w.id ≠ input.violation_id → w ∈ db.violations)) ∧
      (∀ w ∈ db.violations, w.id ≠ input.violation_id →
        w ∈ (sendWhatsAppMessage db input now rand).2.violations)) := by
  constructor
  · intro h
    simp only [sendWhatsAppMessage, h]
  · intro ex hex
    have hsend : sendWhatsAppMessage db input now rand =
        ({ success := true, messageId := some (waMessageId now rand), error := none },
         markWhatsAppSent db input.violation_id (waMessageId now rand) now) := by
      simp only [sendWhatsAppMessage, hex]
    rw [hsend]
    refine ⟨rfl, ?_, ?_⟩
    · intro w hw
      simp only [markWhatsAppSent, List.mem_map] at hw
      obtain ⟨w0, hw0, rfl⟩ := hw
      by_cases hidw : w0.id == input.violation_id
      · rw [if_pos hidw]
        exact ⟨fun _ => ⟨rfl, rfl⟩, fun hne => absurd (by simpa using hidw) hne⟩
      · rw [if_neg hidw]
        exact ⟨fun heq => absurd heq (by simpa using hidw), fun _ => hw0⟩
    · intro w hw hne
      simp only [markWhatsAppSent, List.mem_map]
      exact ⟨w, hw, by rw [if_neg (by simpa using hne)]⟩

/-- C4 witness at dbA: missing id 99 returns the failure value with the
store untouched; existing id 1 returns success and marks it sent. -/
theorem c4_witness :
    sendWhatsAppMessage dbA { violation_id := 99, phone_number := "08", message := "x" } 60 "r1" =
      ({ success := false, messageId := none, error := some msgWaViolationNotFound }, dbA) ∧
    (sendWhatsAppMessage dbA { violation_id := 1, phone_number := "08", message := "x" } 60 "r1").1 =
      { success := true, messageId := some (waMessageId 60 "r1"), error := none } ∧
    ({ vioA with whatsapp_sent := true, whatsapp_sent_at := some 60 } : Violation).whatsapp_sent = true ∧
    ({ vioA with whatsapp_sent := true, whatsapp_sent_at := some 60 } : Violation).whatsapp_sent_at = some 60 := by
  have h99 := (c4_send_whatsapp dbA { violation_id := 99, phone_number := "08", message := "x" }
    60 "r1").1 (by decide)
  have h1 := (c4_send_whatsapp dbA { violation_id := 1, phone_number := "08", message := "x" }
    60 "r1").2 vioA (by decide)
  have hmem := (h1.2.1 { vioA with whatsapp_sent := true, whatsapp_sent_at := some 60 }
    (by decide)).1 (by decide)
  exact ⟨h99, h1.1, hmem.1, hmem.2⟩

/-! ### C2 -/

/-- C2 (confirmed): when the student id is unknown (and, per the foreign-key
constraint, no violation references an unknown student), getViolations with
that filter returns the empty list without error while getViolationsByStudent
fails with NotFound; when the student exists, getViolationsByStudent returns
exactly the sorted (violation_time descending) permutation of that students
violations, and getViolations with the bare student filter returns the same
list up to the default LIMIT 1000 (equal whenever the student has at most
1000 violations). -/
theorem c2_list_vs_listByStudent (db : DB) (sid : Nat)
    (hfk : ∀ v ∈ db.violations, studentExists db v.student_id = true) :
    (studentExists db sid = false →
      getViolations db (some { student_id := some sid }) = [] ∧
      getViolationsByStudent db sid = Except.error (msgStudentNotFound sid)) ∧
    (studentExists db sid = true →
      getViolationsByStudent db sid =
        Except.ok (sortByTimeDesc (db.violations.filter (fun v => v.student_id == sid))) ∧
      List.Sorted timeGe (sortByTimeDesc (db.violations.filter (fun v => v.student_id == sid))) ∧
      (sortByTimeDesc (db.violations.filter (fun v => v.student_id == sid))).Perm
        (db.violations.filter (fun v => v.student_id == sid)) ∧
      getViolations db (some { student_id := some sid }) =
        (sortByTimeDesc (db.violations.filter (fun v => v.student_id == sid))).take 1000 ∧
      ((db.violations.filter (fun v => v.student_id == sid)).length ≤ 1000 →
        getViolations db (some { student_id := some sid }) =
          sortByTimeDesc (db.violations.filter (fun v => v.student_id == sid)))) := by
  constructor
  · intro hex
    have hnil : db.violations.filter (fun v => v.student_id == sid) = [] := by
      rw [List.filter_eq_nil_iff]
      intro v hv hpred
      have hveq : v.student_id = sid := by simpa using hpred
      have := hfk v hv
      rw [hveq] at this
      rw [this] at hex
      cases hex
    constructor
    · simp [getViolations, hnil, sortByTimeDesc]
    · simp [getViolationsByStudent, hex]
  · intro hex
    refine ⟨by simp [getViolationsByStudent, hex], List.sorted_insertionSort timeGe _,
      List.perm_insertionSort timeGe _, by simp [getViolations], ?_⟩
    intro hlen
    have hlen2 : (sortByTimeDesc (db.violations.filter (fun v => v.student_id == sid))).length ≤ 1000 := by
      rw [sortByTimeDesc, (List.perm_insertionSort timeGe _).length_eq]
      exact hlen
    simp [getViolations, List.take_of_length_le hlen2]

/-- C2 witness: unknown id 99 on dbA gives the empty list and NotFound; the
known id 1 gives the two violations, most recent first, from both readers. -/
theorem c2_witness :
    getViolations dbA (some { student_id := some 99 }) = [] ∧
    getViolationsByStudent dbA 99 = Except.error (msgStudentNotFound 99) ∧
    getViolationsByStudent dbA 1 = Except.ok [vioB, vioA] ∧
    getViolations dbA (some { student_id := some 1 }) = [vioB, vioA] := by
  have h99 := (c2_list_vs_listByStudent dbA 99 (by decide)).1 (by decide)
  have h1 := (c2_list_vs_listByStudent dbA 1 (by decide)).2 (by decide)
  refine ⟨h99.1, h99.2, ?_, ?_⟩
  · rw [h1.1]
    decide
  · rw [h1.2.2.2.2 (by decide)]
    decide

/-! ### C3 -/

/-- C3 (confirmed): a successful updateViolation changes exactly the
supplied fields of the stored record — every unsupplied column keeps its old
value — except that updated_at is always set to now and whatsapp_sent_at is
additionally set to now exactly on the documented false-to-true
whatsapp_sent transition (so supplying whatsapp_sent alone touches no other
data column); a missing id or an unresolvable supplied student_id fails with
the respective NotFound error and returns the store unchanged. -/
theorem c3_update_frame (db : DB) (input : UpdateViolationInput) (now : Int) :
    (∀ v, (updateViolation db input now).1 = Except.ok v →
      ∃ ex, findViolation db input.id = some ex ∧
        (input.student_id = none → v.student_id = ex.student_id) ∧
        (input.violation_type = none → v.violation_type = ex.violation_type) ∧
        (input.location = none → v.location = ex.location) ∧
        (input.description = none → v.description = ex.description) ∧
        (input.photo_url = none → v.photo_url = ex.photo_url) ∧
        (input.violation_time = none → v.violation_time = ex.violation_time) ∧
        (input.whatsapp_sent = none → v.whatsapp_sent = ex.whatsapp_sent ∧
          v.whatsapp_sent_at = ex.whatsapp_sent_at) ∧
        (∀ x, input.student_id = some x → v.student_id = x) ∧
        (∀ x, input.violation_type = some x → v.violation_type = x) ∧
        (∀ x, input.location = some x → v.location = x) ∧
        (∀ x, input.description = some x → v.description = x) ∧
        (∀ x, input.photo_url = some x → v.photo_url = x) ∧
        (∀ x, input.violation_time = some x → v.violation_time = x) ∧
        (∀ b, input.whatsapp_sent = some b → v.whatsapp_sent = b) ∧
        v.id = ex.id ∧ v.reported_by = ex.reported_by ∧ v.created_at = ex.created_at ∧
        v.updated_at = now ∧
        (v.whatsapp_sent_at = ex.whatsapp_sent_at ∨
          (input.whatsapp_sent = some true ∧ ex.whatsapp_sent = false ∧
            v.whatsapp_sent_at = some now))) ∧
    (findViolation db input.id = none →
      updateViolation db input now = (Except.error (msgViolationNotFound input.id), db)) ∧
    (∀ ex sid, findViolation db input.id = some ex → input.student_id = some sid →
      studentExists db sid = false →
      updateViolation db input now = (Except.error (msgStudentNotFound sid), db)) := by
  refine ⟨?_, ?_, ?_⟩
  · intro v hok
    obtain ⟨ex, hfind, hv, _⟩ := updateViolation_ok_shape hok
    subst hv
    refine ⟨ex, hfind, ?_, ?_, ?_, ?_, ?_, ?_, ?_, ?_, ?_, ?_, ?_, ?_, ?_, ?_, rfl, rfl, rfl,
      rfl, ?_⟩
    · intro h; simp [applySet, h]
    · intro h; simp [applySet, h]
    · intro h; simp [applySet, h]
    · intro h; simp [applySet, h]
    · intro h; simp [applySet, h]
    · intro h; simp [applySet, h]
    · intro h; exact ⟨by simp [applySet, h], by simp [applySet, h]⟩
    · intro x h; simp [applySet, h]
    · intro x h; simp [applySet, h]
    · intro x h; simp [applySet, h]
    · intro x h; simp [applySet, h]
    · intro x h; simp [applySet, h]
    · intro x h; simp [applySet, h]
    · intro b h; simp [applySet, h]
    · rcases hws : input.whatsapp_sent with _ | b
      · left; simp [applySet, hws]
      · cases b with
        | false => left; simp [applySet, hws]
        | true =>
          cases hexw : ex.whatsapp_sent with
          | false => right; exact ⟨rfl, rfl, by simp [applySet, hws, hexw]⟩
          | true => left; simp [applySet, hws, hexw]
  · intro hnone
    simp only [updateViolation, hnone]
  · intro ex sid hfind hsid hst
    simp only [updateViolation, hfind, hsid, hst]
    rw [if_neg (by simp)]

/-- The record produced by marking vioA as sent at time 50. -/
def vioASent : Violation :=
  { vioA with whatsapp_sent := true, whatsapp_sent_at := some 50, updated_at := 50 }

/-- C3 witness at dbA: supplying whatsapp_sent alone marks it sent, sets the
timestamp side effect and updated_at, and leaves the data columns untouched;
missing id 99 and an unresolvable student 42 fail with NotFound, store
unchanged. -/
theorem c3_witness :
    (updateViolation dbA { id := 1, whatsapp_sent := some true } 50).1 = Except.ok vioASent ∧
    vioASent.violation_type = vioA.violation_type ∧
    vioASent.updated_at = 50 ∧
    updateViolation dbA { id := 99 } 50 = (Except.error (msgViolationNotFound 99), dbA) ∧
    updateViolation dbA { id := 1, student_id := some 42 } 50 =
      (Except.error (msgStudentNotFound 42), dbA) := by
  have hok : (updateViolation dbA { id := 1, whatsapp_sent := some true } 50).1 =
      Except.ok vioASent := by decide
  obtain ⟨ex, hfind, hcl⟩ := (c3_update_frame dbA { id := 1, whatsapp_sent := some true } 50).1
    _ hok
  have hex : ex = vioA := by
    have : findViolation dbA 1 = some vioA := by decide
    rw [this] at hfind
    exact (Option.some.injEq _ _ ▸ hfind).symm
  refine ⟨hok, ?_, hcl.2.2.2.2.2.2.2.2.2.2.2.2.2.2.2.2.2.1, ?_, ?_⟩
  · rw [hcl.2.1 rfl, hex]
  · exact (c3_update_frame dbA { id := 99 } 50).2.1 (by decide)
  · exact (c3_update_frame dbA { id := 1, student_id := some 42 } 50).2.2 vioA 42
      (by decide) rfl (by decide)

/-! ### C1 -/

/-- A violation already marked sent, timestamp recorded. -/
def vioSent : Violation := { vioA with whatsapp_sent := true, whatsapp_sent_at := some 5 }

/-- Store holding the already-sent violation. -/
def dbSent : DB := { students := [stA], users := [7], violations := [vioSent], nextVid := 2 }

/-- The record updateViolation produces for `{ id := 1, whatsapp_sent := some
false }` at time 10 on dbSent: the flag is cleared but the old timestamp
survives. -/
def vioStale : Violation := { vioSent with whatsapp_sent := false, updated_at := 10 }

/-- C1 (counterexample): an update supplying whatsapp_sent = false on a
violation whose whatsapp_sent is true succeeds and leaves a record with
whatsapp_sent = false yet whatsapp_sent_at still non-null — the claimed iff
fails immediately after this updateViolation call. -/
theorem c1_counterexample :
    vioSent.whatsapp_sent = true ∧ vioSent.whatsapp_sent_at = some 5 ∧
    (updateViolation dbSent { id := 1, whatsapp_sent := some false } 10).1 =
      Except.ok vioStale ∧
    (updateViolation dbSent { id := 1, whatsapp_sent := some false } 10).2.violations =
      [vioStale] ∧
    vioStale.whatsapp_sent = false ∧ vioStale.whatsapp_sent_at = some 5 ∧
    ¬ waIff vioStale := by
  refine ⟨rfl, rfl, by decide, by decide, rfl, rfl, ?_⟩
  intro hcon
  exact absurd (hcon.1 (by decide)) (by decide)

/-- C1 (amended): the iff between whatsapp_sent and a non-null
whatsapp_sent_at holds immediately after every createViolation,
markWhatsAppSent and sendWhatsAppMessage call, and after every
updateViolation call except one that supplies whatsapp_sent = false while
the stored flag is true: that call clears the flag but keeps the old
(non-null) timestamp.  `hpre` is the invariant on the pre-state and `huniq`
the primary-key uniqueness of violation ids. -/
theorem c1_whatsapp_iff (db : DB) (now : Int) (rand : String)
    (hpre : ∀ w ∈ db.violations, waIff w)
    (huniq : (db.violations.map (fun v => v.id)).Nodup) :
    (∀ input v db2, createViolation db input now = (Except.ok v, db2) →
      waIff v ∧ ∀ w ∈ db2.violations, waIff w) ∧
    (∀ vid mid, ∀ w ∈ (markWhatsAppSent db vid mid now).violations, waIff w) ∧
    (∀ input, ∀ w ∈ (sendWhatsAppMessage db input now rand).2.violations, waIff w) ∧
    (∀ input v, (updateViolation db input now).1 = Except.ok v →
      ∀ ex, findViolation db input.id = some ex →
        (¬ (input.whatsapp_sent = some false ∧ ex.whatsapp_sent = true) →
          waIff v ∧ ∀ w ∈ (updateViolation db input now).2.violations, waIff w) ∧
        (input.whatsapp_sent = some false → ex.whatsapp_sent = true →
          v.whatsapp_sent = false ∧ v.whatsapp_sent_at = ex.whatsapp_sent_at ∧
          ex.whatsapp_sent_at ≠ none)) := by
  have hmark : ∀ vid mid, ∀ w ∈ (markWhatsAppSent db vid mid now).violations, waIff w := by
    intro vid mid w hw
    simp only [markWhatsAppSent, List.mem_map] at hw
    obtain ⟨w0, hw0, rfl⟩ := hw
    by_cases hid2 : w0.id == vid
    · rw [if_pos hid2]
      unfold waIff
      simp
    · rw [if_neg hid2]
      exact hpre w0 hw0
  refine ⟨?_, hmark, ?_, ?_⟩
  · intro input v db2 hok
    unfold createViolation at hok
    by_cases hst : studentExists db input.student_id
    · rw [if_pos hst] at hok
      by_cases hus : userExists db input.reported_by
      · rw [if_pos hus] at hok
        injection hok with h1 h2
        injection h1 with hv
        have hvIff : waIff v := by
          unfold waIff
          rw [← hv]
          simp
        refine ⟨hvIff, ?_⟩
        intro w hw
        rw [← h2] at hw
        simp only [List.mem_append, List.mem_singleton] at hw
        rcases hw with hw | hw
        · exact hpre w hw
        · rw [hw, hv]
          exact hvIff
      · rw [if_neg hus] at hok
        injection hok with h1 _
        exact Except.noConfusion h1
    · rw [if_neg hst] at hok
      injection hok with h1 _
      exact Except.noConfusion h1
  · intro input w hw
    cases hfind : findViolation db input.violation_id with
    | none =>
      simp only [sendWhatsAppMessage, hfind] at hw
      exact hpre w hw
    | some ex =>
      simp only [sendWhatsAppMessage, hfind] at hw
      exact hmark input.violation_id (waMessageId now rand) w hw
  · intro input v hok ex hfind
    obtain ⟨ex2, hfind2, hv, hdb2⟩ := updateViolation_ok_shape hok
    rw [hfind] at hfind2
    injection hfind2 with hexeq
    rw [← hexeq] at hv hdb2
    subst hv
    have hfindL : db.violations.find? (fun v => v.id == input.id) = some ex := hfind
    have hexmem : ex ∈ db.violations := List.mem_of_find?_eq_some hfindL
    have hexIff := hpre ex hexmem
    unfold waIff at hexIff
    constructor
    · intro hnot
      have hvIff : waIff (applySet input ex now ex) := by
        unfold waIff applySet
        rcases hws : input.whatsapp_sent with _ | b
        · simpa using hexIff
        · cases b with
          | false =>
            have hexf : ex.whatsapp_sent = false := by
              by_contra hcon
              rw [Bool.not_eq_false] at hcon
              exact hnot ⟨hws, hcon⟩
            have hatn : ex.whatsapp_sent_at = none := by
              rw [hexf] at hexIff
              simpa using hexIff
            simp [hatn]
          | true =>
            cases hexw : ex.whatsapp_sent with
            | false => simp
            | true =>
              have hat : ex.whatsapp_sent_at ≠ none := by
                rw [hexw] at hexIff
                exact hexIff.2 rfl
              simp [hexw, hat]
      refine ⟨hvIff, ?_⟩
      intro w hw
      rw [hdb2] at hw
      simp only [List.mem_map] at hw
      obtain ⟨w0, hw0, rfl⟩ := hw
      by_cases hidw : w0.id == input.id
      · have hw0ex : w0 = ex := by
          apply List.inj_on_of_nodup_map huniq hw0 hexmem
          have h1 : w0.id = input.id := by simpa using hidw
          have h2 : ex.id = input.id := by simpa using List.find?_some hfindL
          rw [h1, h2]
        rw [if_pos hidw, hw0ex]
        exact hvIff
      · rw [if_neg hidw]
        exact hpre w0 hw0
    · intro hwsf hext
      refine ⟨by simp [applySet, hwsf], by simp [applySet, hwsf], ?_⟩
      rw [hext] at hexIff
      exact hexIff.2 rfl

/-- C1 witness: on dbA (invariant holds, ids unique), marking violation 1
sent yields a record satisfying the iff, and an update supplying
whatsapp_sent alone preserves the iff on the returned record. -/
theorem c1_witness :
    waIff { vioA with whatsapp_sent := true, whatsapp_sent_at := some 60 } ∧
    waIff vioASent := by
  have h := c1_whatsapp_iff dbA 60 "r1" (by decide) (by decide)
  have h50 := c1_whatsapp_iff dbA 50 "r1" (by decide) (by decide)
  constructor
  · exact h.2.1 1 "m1" { vioA with whatsapp_sent := true, whatsapp_sent_at := some 60 }
      (by decide)
  · have hupd := (h50.2.2.2 { id := 1, whatsapp_sent := some true } vioASent (by decide)
      vioA (by decide)).1 (by simp)
    exact hupd.1

/-! ### C6 -/

/-- Specification-side magic-signature predicate: the decoded bytes start
with the magic bytes of the declared format (JPEG FF D8 FF, the 8-byte PNG
signature, or GIF87a/GIF89a read through 7-bit ascii). -/
def magicOk (fmt : String) (b : List Nat) : Prop :=
  ((fmt = "jpeg" ∨ fmt = "jpg") ∧ b.take 3 = jpegMagic) ∨
  (fmt = "png" ∧ b.take 8 = pngMagic) ∨
  (fmt = "gif" ∧ ((b.take 6).map (fun x => x % 128) = gif87Magic ∨
    (b.take 6).map (fun x => x % 128) = gif89Magic))

instance (fmt : String) (b : List Nat) : Decidable (magicOk fmt b) :=
  inferInstanceAs (Decidable (((fmt = "jpeg" ∨ fmt = "jpg") ∧ b.take 3 = jpegMagic) ∨
    (fmt = "png" ∧ b.take 8 = pngMagic) ∨
    (fmt = "gif" ∧ ((b.take 6).map (fun x => x % 128) = gif87Magic ∨
      (b.take 6).map (fun x => x % 128) = gif89Magic))))

/-- The header check accepts exactly buffers of at least eight bytes whose
front matches the magic signature of their (allowed) format. -/
theorem validateImageHeader_iff {b : List Nat} {fmt : String}
    (h : ALLOWED_FORMATS.contains fmt = true) :
    validateImageHeader b fmt = true ↔ 8 ≤ b.length ∧ magicOk fmt b := by
  have hmem : fmt = "jpeg" ∨ fmt = "jpg" ∨ fmt = "png" ∨ fmt = "gif" := by
    simpa [ALLOWED_FORMATS] using h
  by_cases hlen : b.length < 8
  · simp only [validateImageHeader, if_pos hlen]
    constructor
    · intro hfalse
      exact absurd hfalse (by simp)
    · rintro ⟨h8, _⟩
      omega
  · push_neg at hlen
    have hnl : ¬ b.length < 8 := by omega
    rcases hmem with rfl | rfl | rfl | rfl
    · simp only [validateImageHeader, if_neg hnl]
      rw [if_pos (by decide)]
      simp [magicOk, hlen, show ("jpeg" : String) ≠ "png" by decide,
        show ("jpeg" : String) ≠ "gif" by decide]
    · simp only [validateImageHeader, if_neg hnl]
      rw [if_pos (by decide)]
      simp [magicOk, hlen, show ("jpg" : String) ≠ "png" by decide,
        show ("jpg" : String) ≠ "gif" by decide]
    · simp only [validateImageHeader, if_neg hnl]
      rw [if_neg (by decide), if_pos (by decide)]
      simp [magicOk, hlen, show ("png" : String) ≠ "jpeg" by decide,
        show ("png" : String) ≠ "jpg" by decide, show ("png" : String) ≠ "gif" by decide]
    · simp only [validateImageHeader, if_neg hnl]
      rw [if_neg (by decide), if_neg (by decide), if_pos (by decide)]
      simp [magicOk, hlen, show ("gif" : String) ≠ "jpeg" by decide,
        show ("gif" : String) ≠ "jpg" by decide, show ("gif" : String) ≠ "png" by decide]

/-- C6 (amended): full classification of validatePhotoFormat — non-data-URLs
are rejected with the invalid-data error; unsupported formats with the
Unsupported image format error; a non-empty payload outside the base64
alphabet with the Invalid base64 encoding error; a decoded payload over 5 MiB
with the size-limit error; decoded bytes that are shorter than eight bytes or
do not start with the formats magic signature with the corrupt-image error;
and everything else is valid with the parsed format. -/
theorem c6_validate_classification (s : String) :
    (parseDataUrl s = none →
      validatePhotoFormat s = { valid := false, format := none, error := some errNotDataUrl }) ∧
    (∀ fmt payload, parseDataUrl s = some (fmt, payload) →
      (ALLOWED_FORMATS.contains fmt = false →
        validatePhotoFormat s =
          { valid := false, format := none, error := some (errUnsupported fmt) }) ∧
      (ALLOWED_FORMATS.contains fmt = true →
        (payload ≠ "" → b64AlphaOk payload = false →
          validatePhotoFormat s =
            { valid := false, format := none, error := some errBadBase64 }) ∧
        ((payload = "" ∨ b64AlphaOk payload = true) →
          (MAX_FILE_SIZE < (b64Decode payload).length →
            validatePhotoFormat s =
              { valid := false, format := none, error := some errTooLarge }) ∧
          ((b64Decode payload).length ≤ MAX_FILE_SIZE →
            (¬ (8 ≤ (b64Decode payload).length ∧ magicOk fmt (b64Decode payload)) →
              validatePhotoFormat s =
                { valid := false, format := none, error := some errNotImage }) ∧
            ((8 ≤ (b64Decode payload).length ∧ magicOk fmt (b64Decode payload)) →
              validatePhotoFormat s =
                { valid := true, format := some fmt, error := none }))))) := by
  constructor
  · intro h
    simp only [validatePhotoFormat, h]
  · intro fmt payload hp
    refine ⟨?_, ?_⟩
    · intro hc
      have hcm : fmt ∉ ALLOWED_FORMATS := by simpa using hc
      simp only [validatePhotoFormat, hp]
      rw [if_pos (by simp [hcm])]
    · intro hc
      have hcm : fmt ∈ ALLOWED_FORMATS := by simpa using hc
      refine ⟨?_, ?_⟩
      · intro hpe hal
        simp only [validatePhotoFormat, hp]
        rw [if_neg (by simp [hcm]), if_pos (by simp [hal, hpe])]
      · intro hok
        have hcond2 : (payload != "" && !(b64AlphaOk payload)) = false := by
          rcases hok with rfl | hal
          · simp
          · simp [hal]
        refine ⟨?_, ?_⟩
        · intro hsize
          simp only [validatePhotoFormat, hp]
          rw [if_neg (by simp [hcm]), if_neg (by simp [hcond2]), if_pos hsize]
        · intro hsize
          have hnlt : ¬ MAX_FILE_SIZE < (b64Decode payload).length := by omega
          refine ⟨?_, ?_⟩
          · intro hbad
            have hh : validateImageHeader (b64Decode payload) fmt = false := by
              rcases Bool.eq_false_or_eq_true (validateImageHeader (b64Decode payload) fmt)
                with h | h
              · exact absurd ((validateImageHeader_iff hc).1 h) hbad
              · exact h
            simp only [validatePhotoFormat, hp]
            rw [if_neg (by simp [hcm]), if_neg (by simp [hcond2]), if_neg hnlt,
              if_pos (by simp [hh])]
          · intro hgood
            have hh : validateImageHeader (b64Decode payload) fmt = true :=
              (validateImageHeader_iff hc).2 hgood
            simp only [validatePhotoFormat, hp]
            rw [if_neg (by simp [hcm]), if_neg (by simp [hcond2]), if_neg hnlt,
              if_neg (by simp [hh])]

/-- A data-URL whose decoded payload is exactly the six GIF87a magic bytes. -/
def gifSmallInput : String := "data:image/gif;base64,R0lGODdh"

/-- C6 (counterexample): this input is a well-formed data-URL with a
supported format, its decoded payload is under the size ceiling and starts
with the GIF87a magic signature, so the claimed classification would accept
it as valid — yet validatePhotoFormat rejects it with the corrupt-image
error, because the code first rejects every buffer shorter than eight bytes;
similarly the claim has no branch producing the Invalid base64 encoding
error the code returns for a bad-alphabet payload. -/
theorem c6_counterexample :
    parseDataUrl gifSmallInput = some ("gif", "R0lGODdh") ∧
    ALLOWED_FORMATS.contains "gif" = true ∧
    b64Decode "R0lGODdh" = gif87Magic ∧
    (b64Decode "R0lGODdh").length ≤ MAX_FILE_SIZE ∧
    ((b64Decode "R0lGODdh").take 6).map (fun x => x % 128) = gif87Magic ∧
    validatePhotoFormat gifSmallInput =
      { valid := false, format := none, error := some errNotImage } ∧
    validatePhotoFormat "data:image/png;base64,!!!!" =
      { valid := false, format := none, error := some errBadBase64 } := by
  refine ⟨by decide, by decide, by decide, by decide, by decide, by decide, by decide⟩

/-- C6 witness driving the classification through four branches. -/
theorem c6_witness :
    validatePhotoFormat "hello" =
      { valid := false, format := none, error := some errNotDataUrl } ∧
    validatePhotoFormat "data:image/bmp;base64,AAAA" =
      { valid := false, format := none, error := some (errUnsupported "bmp") } ∧
    validatePhotoFormat "data:image/png;base64,????" =
      { valid := false, format := none, error := some errBadBase64 } ∧
    validatePhotoFormat pngDataUrl = { valid := true, format := some "png", error := none } := by
  have h1 := (c6_validate_classification "hello").1 (by decide)
  have h2 := (c6_validate_classification "data:image/bmp;base64,AAAA").2 "bmp" "AAAA"
    (by decide)
  have h3 := (c6_validate_classification "data:image/png;base64,????").2 "png" "????"
    (by decide)
  have h4 := (c6_validate_classification pngDataUrl).2 "png" "iVBORw0KGgo=" (by decide)
  refine ⟨h1, h2.1 (by decide), (h3.2 (by decide)).1 (by decide) (by decide), ?_⟩
  exact ((((h4.2 (by decide)).2 (Or.inr (by decide))).2 (by decide)).2 (by decide))

/-! ### C5 -/

/-- Fixed date rendering used to instantiate the formatter parameter. -/
def fdX : Int → String := fun _ => "Senin, 15 Januari 2024"

/-- Fixed time rendering used to instantiate the formatter parameter. -/
def ftX : Int → String := fun _ => "07.30"

/-- A violation whose violation_type itself contains the description marker
while description and photo_url are null. -/
def vioInj : Violation := { vioA with violation_type := "Keterangan: tercatat" }

/-- Store holding the marker-injecting violation. -/
def dbInj : DB := { students := [stA], users := [7], violations := [vioInj], nextVid := 2 }

/-- C5 (counterexample): for this existing violation the description is null,
yet the composed message does contain the substring tested by the claim,
because the violation_type is interpolated verbatim — the claimed iff between
the marker substring and a non-empty description fails. -/
theorem c5_counterexample :
    vioInj.description = none ∧
    generateViolationMessage dbInj fdX ftX 1 =
      Except.ok (buildMessage stA vioInj (fdX 100) (ftX 100)) ∧
    strContains (buildMessage stA vioInj (fdX 100) (ftX 100)) ketSub = true := by
  refine ⟨rfl, by decide, by decide⟩

/-- C5 (amended): provided none of the interpolated values (student name,
class, NISN, formatted date, formatted time, violation type, location,
description, photo URL) itself contains the marker substrings, the composed
message contains `Keterangan:` iff the description is non-null and non-empty
and contains `Bukti foto:` iff the photo URL is non-null and non-empty; the
literal description text and photo URL appear in the message whenever
present. -/
theorem c5_message_markers (db : DB) (fd ft : Int → String) (vid : Nat)
    (v : Violation) (st : Student)
    (hv : findViolation db vid = some v)
    (hst : db.students.find? (fun s => s.id == v.student_id) = some st)
    (hcl : ∀ s ∈ [st.name, st.class_, st.nisn, fd v.violation_time, ft v.violation_time,
        v.violation_type, v.location] ++ (v.description.toList ++ v.photo_url.toList),
      strContains s ketSub = false ∧ strContains s buktiSub = false) :
    generateViolationMessage db fd ft vid =
      Except.ok (buildMessage st v (fd v.violation_time) (ft v.violation_time)) ∧
    (strContains (buildMessage st v (fd v.violation_time) (ft v.violation_time)) ketSub = true ↔
      strTruthy v.description = true) ∧
    (strContains (buildMessage st v (fd v.violation_time) (ft v.violation_time)) buktiSub = true ↔
      strTruthy v.photo_url = true) ∧
    (∀ s, v.description = some s → s ≠ "" →
      strContains (buildMessage st v (fd v.violation_time) (ft v.violation_time)) s = true) ∧
    (∀ s, v.photo_url = some s → s ≠ "" →
      strContains (buildMessage st v (fd v.violation_time) (ft v.violation_time)) s = true) := by
  have c1 := hcl st.name (by simp)
  have c2 := hcl st.class_ (by simp)
  have c3 := hcl st.nisn (by simp)
  have c4 := hcl (fd v.violation_time) (by simp)
  have c5 := hcl (ft v.violation_time) (by simp)
  have c6 := hcl v.violation_type (by simp)
  have c7 := hcl v.location (by simp)
  have cdesc : ∀ s, v.description = some s →
      strContains s ketSub = false ∧ strContains s buktiSub = false := by
    intro s hs
    exact hcl s (by simp [hs])
  have cphoto : ∀ s, v.photo_url = some s →
      strContains s ketSub = false ∧ strContains s buktiSub = false := by
    intro s hs
    exact hcl s (by simp [hs])
  have hnoK : strTruthy v.description = false →
      strContains (buildMessage st v (fd v.violation_time) (ft v.violation_time)) ketSub
        = false := by
    intro hf
    have hno := build_no_occur (p := ketSub.data) st v (fd v.violation_time)
      (ft v.violation_time) (by decide)
      (by decide) (by decide) (by decide) (by decide) (by decide) (by decide) (by decide)
      (by decide)
      (fun htr => absurd htr (by simp [hf]))
      (fun _ => by decide)
      (strContains_false c1.1) (strContains_false c2.1) (strContains_false c3.1)
      (strContains_false c4.1) (strContains_false c5.1) (strContains_false c6.1)
      (strContains_false c7.1)
      (fun s hs => strContains_false (cdesc s hs).1)
      (fun s hs => strContains_false (cphoto s hs).1)
    cases hb : strContains (buildMessage st v (fd v.violation_time) (ft v.violation_time)) ketSub
    · rfl
    · exact absurd ((strContains_iff _ _).1 hb) hno
  have hnoB : strTruthy v.photo_url = false →
      strContains (buildMessage st v (fd v.violation_time) (ft v.violation_time)) buktiSub
        = false := by
    intro hf
    have hno := build_no_occur (p := buktiSub.data) st v (fd v.violation_time)
      (ft v.violation_time) (by decide)
      (by decide) (by decide) (by decide) (by decide) (by decide) (by decide) (by decide)
      (by decide)
      (fun _ => by decide)
      (fun htr => absurd htr (by simp [hf]))
      (strContains_false c1.2) (strContains_false c2.2) (strContains_false c3.2)
      (strContains_false c4.2) (strContains_false c5.2) (strContains_false c6.2)
      (strContains_false c7.2)
      (fun s hs => strContains_false (cdesc s hs).2)
      (fun s hs => strContains_false (cphoto s hs).2)
    cases hb : strContains (buildMessage st v (fd v.violation_time) (ft v.violation_time)) buktiSub
    · rfl
    · exact absurd ((strContains_iff _ _).1 hb) hno
  refine ⟨by simp only [generateViolationMessage, hv, hst], ?_, ?_, ?_, ?_⟩
  · constructor
    · intro hcon
      by_contra hne
      have hf : strTruthy v.description = false := by
        cases hx : strTruthy v.description
        · rfl
        · exact absurd hx hne
      rw [hnoK hf] at hcon
      exact absurd hcon (by simp)
    · intro ht
      obtain ⟨s, hs, hne⟩ := (strTruthy_iff _).1 ht
      exact (strContains_iff _ _).2 (build_contains_desc st v _ _ hs hne).1
  · constructor
    · intro hcon
      by_contra hne
      have hf : strTruthy v.photo_url = false := by
        cases hx : strTruthy v.photo_url
        · rfl
        · exact absurd hx hne
      rw [hnoB hf] at hcon
      exact absurd hcon (by simp)
    · intro ht
      obtain ⟨s, hs, hne⟩ := (strTruthy_iff _).1 ht
      exact (strContains_iff _ _).2 (build_contains_photo st v _ _ hs hne).1
  · intro s hs hne
    exact (strContains_iff _ _).2 (build_contains_desc st v _ _ hs hne).2
  · intro s hs hne
    exact (strContains_iff _ _).2 (build_contains_photo st v _ _ hs hne).2

/-- A violation of stA carrying a description and no photo. -/
def vioD : Violation := { vioA with description := some "Tidur di kelas" }

/-- Store holding the described violation. -/
def dbD : DB := { students := [stA], users := [7], violations := [vioD], nextVid := 2 }

/-- C5 witness: with a clean description present and no photo, the message
contains the description marker and the literal description but not the
photo marker. -/
theorem c5_witness :
    generateViolationMessage dbD fdX ftX 1 =
      Except.ok (buildMessage stA vioD (fdX 100) (ftX 100)) ∧
    strContains (buildMessage stA vioD (fdX 100) (ftX 100)) ketSub = true ∧
    strContains (buildMessage stA vioD (fdX 100) (ftX 100)) buktiSub = false ∧
    strContains (buildMessage stA vioD (fdX 100) (ftX 100)) "Tidur di kelas" = true := by
  have h := c5_message_markers dbD fdX ftX 1 vioD stA (by decide) (by decide) (by decide)
  refine ⟨h.1, h.2.1.2 (by decide), ?_, h.2.2.2.1 "Tidur di kelas" rfl (by decide)⟩
  cases hb : strContains (buildMessage stA vioD (fdX 100) (ftX 100)) buktiSub
  · rfl
  · exact absurd (h.2.2.1.1 hb) (by decide)
